import Mathlib

/-!
Verification of the tide-computation core of TideTimeBot
(`src/services/tides.ts`).

The core is embedded shallowly:

* Heights and epoch instants are modelled as rationals (`ℚ`), the exact
  counterpart of the numeric timeline the code manipulates in
  milliseconds via `Date.getTime()`.  A local wall-clock timestamp string
  `"YYYY-MM-DDTHH:mm"` parsed with `new Date(s + "Z")` is modelled by its
  epoch value in seconds (`localEpoch`); the truncation
  `toISOString().substring(0, 16)` that produces the stored
  `localTimeStr` is modelled by the whole number of minutes
  `⌊localEpoch / 60⌋` (`localMinute`), and the date prefix
  `substring(0, 10)`, used for the "today" window, by the whole number of
  days, i.e. `localMinute.fdiv 1440`.
* The daily tables of the two upstream responses keep their JSON field
  names; nullable / possibly-absent fields are `Option`s, and date keys
  `"YYYY-MM-DD"` are modelled as day numbers (`ℤ`).
* `getTidesCore` is the pure tail of `getTides` (lines 147–227 of
  `tides.ts`): everything after the two HTTP responses have been
  destructured, with `now` and the response data passed explicitly.
-/

namespace TideTimeBot

/-- The `'high' | 'low'` union of `TideEvent.type` in `tides.ts`. -/
inductive TideType where
  | high
  | low
deriving DecidableEq, Repr

/-- The `TideEvent` record of `tides.ts`.  `time` is the absolute instant
(`realDate`, epoch seconds); `localEpoch` is the exact local-as-UTC epoch
value `interpolatedTime` (seconds) before string truncation; `localMinute`
is the numeric content of `localTimeStr = toISOString().substring(0,16)`,
i.e. the local time truncated to whole minutes. -/
structure TideEvent where
  time : ℚ
  localEpoch : ℚ
  localMinute : ℤ
  type : TideType
deriving DecidableEq, Repr

/-- `interpolateTrend` of `tides.ts` (lines 34–39): three-point quadratic
vertex fit returning the peak/trough offset in hours from the central
sample.  The float literal `1e-10` is the exact rational `1 / 10 ^ 10`. -/
def interpolateTrend (y1 y2 y3 : ℚ) : ℚ :=
  let a := (y1 + y3) / 2 - y2
  let b := (y3 - y1) / 2
  if |a| < 1 / 10 ^ 10 then 0 else -b / (2 * a)

/-- The classification of the loop body of `findHighLowTides`
(lines 58–64 of `tides.ts`): `high` when `curr > prev && curr >= next`,
else `low` when `curr < prev && curr <= next`, else none. -/
def classify (prev curr nxt : ℚ) : Option TideType :=
  if prev < curr ∧ nxt ≤ curr then some TideType.high
  else if curr < prev ∧ curr ≤ nxt then some TideType.low
  else none

/-- One iteration of the `findHighLowTides` loop (lines 54–102 of
`tides.ts`) at index `i`: classify the triple
`(heights[i-1], heights[i], heights[i+1])` and, when an extremum is
found, build the event.  `localEpoch` is
`new Date(times[i] + "Z").getTime() + offsetHours * 3600 * 1000` in
seconds; `time` is that minus `utcOffsetSeconds`. -/
def eventAt (times heights : List ℚ) (utcOffsetSeconds : ℚ) (i : ℕ) :
    Option TideEvent :=
  if 1 ≤ i ∧ i + 1 < heights.length then
    let prev := heights.getD (i - 1) 0
    let curr := heights.getD i 0
    let nxt := heights.getD (i + 1) 0
    match classify prev curr nxt with
    | some ty =>
        let offsetHours := interpolateTrend prev curr nxt
        let base := times.getD i 0
        let localEpoch := base + offsetHours * 3600
        some { time := localEpoch - utcOffsetSeconds
               localEpoch := localEpoch
               localMinute := ⌊localEpoch / 60⌋
               type := ty }
    | none => none
  else none

/-- `findHighLowTides` of `tides.ts` (lines 48–106): `[]` when either
input series has fewer than 3 entries, otherwise one event per classified
interior index, in index order. -/
def findHighLowTides (times heights : List ℚ) (utcOffsetSeconds : ℚ) :
    List TideEvent :=
  if times.length < 3 ∨ heights.length < 3 then []
  else (List.range heights.length).filterMap (eventAt times heights utcOffsetSeconds)

/-- The `daily` block of the marine response (`marineData.daily`):
date keys and the optional `wave_height_max` array.  The enclosing
`Option` models the `if (dailyMarine && dailyMarine.time)` truthiness
guard of line 163. -/
structure MarineDaily where
  time : List ℤ
  wave_height_max : Option (List ℚ)
deriving DecidableEq, Repr

/-- The `daily` block of the forecast response (`forecastData.daily`):
date keys and the optional `wind_speed_10m_max`, `sunrise`, `sunset`
arrays (sunrise/sunset local-time strings modelled as rationals, passed
through untouched). -/
structure ForecastDaily where
  time : List ℤ
  wind_speed_10m_max : Option (List ℚ)
  sunrise : Option (List ℚ)
  sunset : Option (List ℚ)
deriving DecidableEq, Repr

/-- The `TideData` result record of `tides.ts`.  High/low tide
`localTimeStr` entries are modelled by their `localMinute` numbers, and
`nextTide` by the pair (type, localMinute). -/
structure TideData where
  highTides : List ℤ
  lowTides : List ℤ
  status : String
  nextTide : Option (TideType × ℤ)
  timezone : String
  maxWaveHeight : Option ℚ
  maxWindSpeed : Option ℚ
  sunrise : Option ℚ
  sunset : Option ℚ
deriving DecidableEq, Repr

/-- Local calendar-day number of an event, as compared by
`e.localTimeStr.startsWith(todayStr)` on line 159 of `tides.ts`: the
`"YYYY-MM-DD"` prefix of the minute-truncated string, i.e. the floor
day of the truncated minute count. -/
def localDay (e : TideEvent) : ℤ :=
  e.localMinute.fdiv 1440

/-- The pure tail of `getTides` (lines 147–227 of `tides.ts`), after the
two HTTP responses are destructured: extraction, "today" windowing,
daily-table joins, next-tide and status resolution.  `now` is the epoch
instant `new Date()` in seconds. -/
def getTidesCore (times heights : List ℚ) (dailyMarine : Option MarineDaily)
    (dailyForecast : Option ForecastDaily) (timezone : String)
    (utcOffsetSeconds now : ℚ) : TideData :=
  let allEvents := findHighLowTides times heights utcOffsetSeconds
  let nowLocal := now + utcOffsetSeconds
  let todayKey : ℤ := ⌊nowLocal / 86400⌋
  let todayEvents := allEvents.filter (fun e => localDay e = todayKey)
  let maxWaveHeight : Option ℚ :=
    match dailyMarine with
    | none => none
    | some m =>
        match m.time.indexOf? todayKey with
        | none => none
        | some idx => m.wave_height_max.bind (fun l => l.get? idx)
  let forecastFields : Option ℚ × Option ℚ × Option ℚ :=
    match dailyForecast with
    | none => (none, none, none)
    | some f =>
        match f.time.indexOf? todayKey with
        | none => (none, none, none)
        | some idx =>
            (f.wind_speed_10m_max.bind (fun l => l.get? idx),
             f.sunrise.bind (fun l => l.get? idx),
             f.sunset.bind (fun l => l.get? idx))
  let futureEvents := allEvents.filter (fun e => now < e.time)
  let nextTideEvent := futureEvents.head?
  let nextTide := nextTideEvent.map (fun e => (e.type, e.localMinute))
  let status :=
    match nextTideEvent with
    | some e => if e.type = TideType.high then "Rising 🌊" else "Falling 🏖️"
    | none =>
        let pastEvents := allEvents.filter (fun e => e.time ≤ now)
        match pastEvents.getLast? with
        | some e => if e.type = TideType.high then "Falling 🏖️" else "Rising 🌊"
        | none => "Unknown 🤷"
  { highTides := (todayEvents.filter (fun e => e.type = TideType.high)).map TideEvent.localMinute
    lowTides := (todayEvents.filter (fun e => e.type = TideType.low)).map TideEvent.localMinute
    status := status
    nextTide := nextTide
    timezone := timezone
    maxWaveHeight := maxWaveHeight
    maxWindSpeed := forecastFields.1
    sunrise := forecastFields.2.1
    sunset := forecastFields.2.2 }

/-! ### Non-finite heights

`findHighLowTides` performs no validation: a non-finite height (JavaScript
`NaN`, modelled as `none`) flows through its comparisons, which are all
false on `NaN`.  The following definitions re-embed the same loop over
`Option ℚ` heights with JavaScript comparison semantics, to settle what
the code does on invalid numeric input. -/

/-- JavaScript `<` lifted to possibly non-finite values: every comparison
involving `NaN` (`none`) is false. -/
def jsLt (x y : Option ℚ) : Bool :=
  match x, y with
  | some a, some b => decide (a < b)
  | _, _ => false

/-- JavaScript `<=` lifted to possibly non-finite values: every
comparison involving `NaN` (`none`) is false. -/
def jsLe (x y : Option ℚ) : Bool :=
  match x, y with
  | some a, some b => decide (a ≤ b)
  | _, _ => false

/-- The classification of the `findHighLowTides` loop body evaluated with
JavaScript comparison semantics on possibly non-finite heights:
`curr > prev && curr >= next` then `curr < prev && curr <= next`. -/
def classifyF (prev curr nxt : Option ℚ) : Option TideType :=
  if jsLt prev curr && jsLe nxt curr then some TideType.high
  else if jsLt curr prev && jsLe curr nxt then some TideType.low
  else none

/-- One iteration of the `findHighLowTides` loop over possibly non-finite
heights.  The inner match is total for Lean; its catch-all branch is
unreachable because a triple classifies only when all three comparisons
saw finite values. -/
def eventAtF (times : List ℚ) (heights : List (Option ℚ))
    (utcOffsetSeconds : ℚ) (i : ℕ) : Option TideEvent :=
  if 1 ≤ i ∧ i + 1 < heights.length then
    let prev := heights.getD (i - 1) none
    let curr := heights.getD i none
    let nxt := heights.getD (i + 1) none
    match classifyF prev curr nxt with
    | some ty =>
        match prev, curr, nxt with
        | some y1, some y2, some y3 =>
            let offsetHours := interpolateTrend y1 y2 y3
            let base := times.getD i 0
            let localEpoch := base + offsetHours * 3600
            some { time := localEpoch - utcOffsetSeconds
                   localEpoch := localEpoch
                   localMinute := ⌊localEpoch / 60⌋
                   type := ty }
        | _, _, _ => none
    | none => none
  else none

/-- `findHighLowTides` over possibly non-finite heights. -/
def findHighLowTidesF (times : List ℚ) (heights : List (Option ℚ))
    (utcOffsetSeconds : ℚ) : List TideEvent :=
  if times.length < 3 ∨ heights.length < 3 then []
  else (List.range heights.length).filterMap (eventAtF times heights utcOffsetSeconds)

/-- A contiguous hourly timestamp series starting at epoch second `t0`:
the "fixed hourly cadence, no gaps" input invariant of the spec, used as
the hypothesis of the monotonicity claims. -/
def hourlyTimes (t0 : ℚ) (n : ℕ) : List ℚ :=
  (List.range n).map (fun (k : ℕ) => t0 + 3600 * (k : ℚ))

/-! ### Helper lemmas -/

theorem classify_high_iff (p c n : ℚ) :
    classify p c n = some TideType.high ↔ p < c ∧ n ≤ c := by
  unfold classify
  split_ifs with h1 h2 <;> simp_all

theorem classify_low_iff (p c n : ℚ) :
    classify p c n = some TideType.low ↔ c < p ∧ c ≤ n := by
  unfold classify
  split_ifs with h1 h2
  · constructor
    · intro h
      exact absurd (Option.some.inj h) (by simp)
    · intro h
      exact absurd h.1 (not_lt.mpr h1.1.le)
  · simp [h2]
  · constructor
    · intro h
      exact absurd h (by simp)
    · intro h
      exact absurd h h2

theorem classify_some_ne {p c n : ℚ} {ty : TideType}
    (h : classify p c n = some ty) : p ≠ c := by
  unfold classify at h
  split_ifs at h with h1 h2
  · exact ne_of_lt h1.1
  · exact ne_of_gt h2.1

theorem interpolateTrend_symm_eq_zero (y1 y2 : ℚ) :
    interpolateTrend y1 y2 y1 = 0 := by
  simp only [interpolateTrend]
  split_ifs <;> simp

theorem interpolateTrend_bounds {y1 y2 y3 : ℚ} {ty : TideType}
    (h : classify y1 y2 y3 = some ty) :
    -(1 / 2) < interpolateTrend y1 y2 y3 ∧ interpolateTrend y1 y2 y3 ≤ 1 / 2 := by
  unfold classify at h
  simp only [interpolateTrend]
  split_ifs at h with h1 h2
  · obtain ⟨hp, hn⟩ := h1
    split_ifs with hg
    · norm_num
    · have h2a : 2 * ((y1 + y3) / 2 - y2) < 0 := by linarith
      constructor
      · rw [lt_div_iff_of_neg h2a]
        linarith
      · rw [div_le_iff_of_neg h2a]
        linarith
  · obtain ⟨hp, hn⟩ := h2
    split_ifs with hg
    · norm_num
    · have h2a : (0 : ℚ) < 2 * ((y1 + y3) / 2 - y2) := by linarith
      constructor
      · rw [lt_div_iff₀ h2a]
        linarith
      · rw [div_le_iff₀ h2a]
        linarith

theorem interpolateTrend_lt_half {y1 y2 y3 : ℚ} {ty : TideType}
    (h : classify y1 y2 y3 = some ty) (hne : y2 ≠ y3) :
    interpolateTrend y1 y2 y3 < 1 / 2 := by
  unfold classify at h
  simp only [interpolateTrend]
  split_ifs at h with h1 h2
  · obtain ⟨hp, hn⟩ := h1
    have hn' : y3 < y2 := lt_of_le_of_ne hn (fun he => hne he.symm)
    split_ifs with hg
    · norm_num
    · have h2a : 2 * ((y1 + y3) / 2 - y2) < 0 := by linarith
      rw [div_lt_iff_of_neg h2a]
      linarith
  · obtain ⟨hp, hn⟩ := h2
    have hn' : y2 < y3 := lt_of_le_of_ne hn hne
    split_ifs with hg
    · norm_num
    · have h2a : (0 : ℚ) < 2 * ((y1 + y3) / 2 - y2) := by linarith
      rw [div_lt_iff₀ h2a]
      linarith

theorem eventAt_elim {times heights : List ℚ} {off : ℚ} {i : ℕ} {e : TideEvent}
    (he : eventAt times heights off i = some e) :
    1 ≤ i ∧ i + 1 < heights.length ∧
      classify (heights.getD (i - 1) 0) (heights.getD i 0) (heights.getD (i + 1) 0)
        = some e.type ∧
      e.localEpoch = times.getD i 0 +
        interpolateTrend (heights.getD (i - 1) 0) (heights.getD i 0)
          (heights.getD (i + 1) 0) * 3600 ∧
      e.time = e.localEpoch - off ∧
      e.localMinute = ⌊e.localEpoch / 60⌋ := by
  unfold eventAt at he
  split_ifs at he with hb
  dsimp only at he
  cases hc : classify (heights.getD (i - 1) 0) (heights.getD i 0) (heights.getD (i + 1) 0) with
  | none =>
      rw [hc] at he
      simp at he
  | some ty =>
      rw [hc] at he
      dsimp only at he
      cases he
      exact ⟨hb.1, hb.2, by simp [hc], rfl, rfl, rfl⟩

theorem eventAt_of_classify {times heights : List ℚ} {off : ℚ} {i : ℕ} {ty : TideType}
    (h1 : 1 ≤ i) (h2 : i + 1 < heights.length)
    (hc : classify (heights.getD (i - 1) 0) (heights.getD i 0) (heights.getD (i + 1) 0)
      = some ty) :
    eventAt times heights off i =
      some { time := times.getD i 0 + interpolateTrend (heights.getD (i - 1) 0)
                 (heights.getD i 0) (heights.getD (i + 1) 0) * 3600 - off
             localEpoch := times.getD i 0 + interpolateTrend (heights.getD (i - 1) 0)
                 (heights.getD i 0) (heights.getD (i + 1) 0) * 3600
             localMinute := ⌊(times.getD i 0 + interpolateTrend (heights.getD (i - 1) 0)
                 (heights.getD i 0) (heights.getD (i + 1) 0) * 3600) / 60⌋
             type := ty } := by
  unfold eventAt
  rw [if_pos ⟨h1, h2⟩]
  dsimp only
  rw [hc]

theorem eventAt_some_type_iff (times heights : List ℚ) (off : ℚ) (i : ℕ) (ty : TideType) :
    (∃ e, eventAt times heights off i = some e ∧ e.type = ty) ↔
      1 ≤ i ∧ i + 1 < heights.length ∧
        classify (heights.getD (i - 1) 0) (heights.getD i 0) (heights.getD (i + 1) 0)
          = some ty := by
  constructor
  · rintro ⟨e, he, rfl⟩
    obtain ⟨h1, h2, h3, -⟩ := eventAt_elim he
    exact ⟨h1, h2, h3⟩
  · rintro ⟨h1, h2, hc⟩
    exact ⟨_, eventAt_of_classify h1 h2 hc, rfl⟩

theorem hourlyTimes_length (t0 : ℚ) (n : ℕ) : (hourlyTimes t0 n).length = n := by
  rw [hourlyTimes, List.length_map, List.length_range]

theorem hourlyTimes_getD {i n : ℕ} (t0 : ℚ) (h : i < n) :
    (hourlyTimes t0 n).getD i 0 = t0 + 3600 * i := by
  rw [hourlyTimes, List.getD_eq_getElem?_getD, List.getElem?_map, List.getElem?_range h]
  rfl

theorem eventAt_hourly_lt {t0 : ℚ} {heights : List ℚ} {off : ℚ} {i j : ℕ}
    {e e' : TideEvent} (hij : i < j)
    (he : eventAt (hourlyTimes t0 heights.length) heights off i = some e)
    (he' : eventAt (hourlyTimes t0 heights.length) heights off j = some e') :
    e.localEpoch < e'.localEpoch ∧ e.time < e'.time ∧ e.localMinute ≤ e'.localMinute := by
  obtain ⟨hi1, hi2, hci, hlei, hti, hmi⟩ := eventAt_elim he
  obtain ⟨hj1, hj2, hcj, hlej, htj, hmj⟩ := eventAt_elim he'
  rw [hourlyTimes_getD t0 (Nat.lt_of_succ_lt hi2)] at hlei
  rw [hourlyTimes_getD t0 (Nat.lt_of_succ_lt hj2)] at hlej
  have hbi := interpolateTrend_bounds hci
  have hbj := interpolateTrend_bounds hcj
  have hmain : e.localEpoch < e'.localEpoch := by
    by_cases hadj : j = i + 1
    · subst hadj
      have hprev : (i + 1) - 1 = i := by omega
      rw [hprev] at hcj
      have hne : heights.getD i 0 ≠ heights.getD (i + 1) 0 := classify_some_ne hcj
      have hhalf := interpolateTrend_lt_half hci hne
      have hcast : ((i + 1 : ℕ) : ℚ) = (i : ℚ) + 1 := by push_cast; ring
      rw [hlei, hlej, hcast]
      linarith [hbj.1]
    · have h2j : i + 2 ≤ j := by omega
      have hcast : (i : ℚ) + 2 ≤ (j : ℚ) := by exact_mod_cast h2j
      rw [hlei, hlej]
      linarith [hbi.2, hbj.1]
  refine ⟨hmain, ?_, ?_⟩
  · rw [hti, htj]
    linarith
  · rw [hmi, hmj]
    exact Int.floor_le_floor (by linarith)

theorem findHighLowTides_hourly_pairwise (t0 : ℚ) (heights : List ℚ) (off : ℚ) :
    (findHighLowTides (hourlyTimes t0 heights.length) heights off).Pairwise
      (fun a b => a.localEpoch < b.localEpoch ∧ a.time < b.time ∧
        a.localMinute ≤ b.localMinute) := by
  unfold findHighLowTides
  split_ifs with hg
  · exact List.Pairwise.nil
  · refine List.pairwise_filterMap.mpr ?_
    refine (List.pairwise_lt_range _).imp ?_
    intro i j hij
    intro e he e' he'
    exact eventAt_hourly_lt hij (Option.mem_def.mp he) (Option.mem_def.mp he')

theorem filter_head?_eq_of_min (now : ℚ) :
    ∀ (l : List TideEvent), (l.Pairwise fun a b => a.time < b.time) →
      ∀ e ∈ l, now < e.time → (∀ e' ∈ l, now < e'.time → e.time ≤ e'.time) →
      (l.filter (fun x => decide (now < x.time))).head? = some e := by
  intro l
  induction l with
  | nil =>
      intro _ e he
      simp at he
  | cons a l ih =>
      intro hp e he hfe hmin
      obtain ⟨ha, hl⟩ := List.pairwise_cons.mp hp
      rw [List.filter_cons]
      rcases List.mem_cons.mp he with rfl | hel
      · rw [if_pos (by simpa using hfe)]
        rfl
      · have hnot : ¬ now < a.time := by
          intro hfa
          exact absurd (hmin a (List.mem_cons_self a l) hfa)
            (not_le.mpr (ha e hel))
        rw [if_neg (by simpa using hnot)]
        exact ih hl e hel hfe (fun e' he' hf => hmin e' (List.mem_cons_of_mem a he') hf)

theorem getLast?_eq_of_max :
    ∀ (l : List TideEvent), (l.Pairwise fun a b => a.time < b.time) →
      ∀ e ∈ l, (∀ e' ∈ l, e'.time ≤ e.time) → l.getLast? = some e := by
  intro l
  induction l with
  | nil =>
      intro _ e he
      simp at he
  | cons a l ih =>
      intro hp e he hmax
      obtain ⟨ha, hl⟩ := List.pairwise_cons.mp hp
      cases l with
      | nil =>
          rcases List.mem_cons.mp he with rfl | h
          · rfl
          · simp at h
      | cons b m =>
          rw [List.getLast?_cons_cons]
          rcases List.mem_cons.mp he with rfl | hel
          · exact absurd (hmax b (by simp)) (not_le.mpr (ha b (by simp)))
          · exact ih hl e hel (fun e' he' => hmax e' (List.mem_cons_of_mem a he'))

/-! ### Claims -/

/-- C8: for every samples series of length less than 3 (timestamp or
height list), `findHighLowTides` returns the empty event list; being a
total function, it raises no error. -/
theorem claim_C8 (times heights : List ℚ) (off : ℚ)
    (h : times.length < 3 ∨ heights.length < 3) :
    findHighLowTides times heights off = [] := by
  unfold findHighLowTides
  rw [if_pos h]

theorem claim_C8_witness : findHighLowTides [0, 3600] [1, 2] 0 = [] :=
  claim_C8 [0, 3600] [1, 2] 0 (Or.inl (by norm_num))

/-- C1: on a series with at least 3 samples, extraction walks every
index through `eventAt`; an interior index `i` yields a high event
exactly when `height[i] > height[i-1]` and `height[i] >= height[i+1]`,
a low event exactly when `height[i] < height[i-1]` and
`height[i] <= height[i+1]`, and the first and last indices never yield
an event. -/
theorem claim_C1 (times heights : List ℚ) (off : ℚ)
    (h3t : 3 ≤ times.length) (h3h : 3 ≤ heights.length) :
    findHighLowTides times heights off =
        (List.range heights.length).filterMap (eventAt times heights off)
    ∧ (∀ i : ℕ,
        ((∃ e, eventAt times heights off i = some e ∧ e.type = TideType.high) ↔
          1 ≤ i ∧ i + 1 < heights.length ∧
            heights.getD (i - 1) 0 < heights.getD i 0 ∧
            heights.getD (i + 1) 0 ≤ heights.getD i 0)
        ∧ ((∃ e, eventAt times heights off i = some e ∧ e.type = TideType.low) ↔
          1 ≤ i ∧ i + 1 < heights.length ∧
            heights.getD i 0 < heights.getD (i - 1) 0 ∧
            heights.getD i 0 ≤ heights.getD (i + 1) 0))
    ∧ eventAt times heights off 0 = none
    ∧ eventAt times heights off (heights.length - 1) = none := by
  refine ⟨?_, ?_, ?_, ?_⟩
  · unfold findHighLowTides
    rw [if_neg (by omega)]
  · intro i
    constructor
    · rw [eventAt_some_type_iff, classify_high_iff]
    · rw [eventAt_some_type_iff, classify_low_iff]
  · simp [eventAt]
  · unfold eventAt
    rw [if_neg (by omega)]

theorem claim_C1_witness :
    ∃ e, eventAt ([0, 3600, 7200] : List ℚ) ([1, 2, 1] : List ℚ) 0 1 = some e ∧
      e.type = TideType.high := by
  have h := claim_C1 [0, 3600, 7200] [1, 2, 1] 0 (by norm_num) (by norm_num)
  exact ((h.2.1 1).1).mpr (by norm_num [List.getD])

/-- C2: for every classified index, the event's interpolated local time
equals the base sample time plus the quadratic-vertex offset in hours:
with `a = (y1+y3)/2 - y2` and `b = (y3-y1)/2` over the neighbour
heights, the offset is `0` when `|a| < 1e-10` and `-b / (2a)`
otherwise. -/
theorem claim_C2 (times heights : List ℚ) (off : ℚ) (i : ℕ) (e : TideEvent)
    (he : eventAt times heights off i = some e) :
    e.localEpoch = times.getD i 0 +
      (let y1 := heights.getD (i - 1) 0
       let y2 := heights.getD i 0
       let y3 := heights.getD (i + 1) 0
       let a := (y1 + y3) / 2 - y2
       let b := (y3 - y1) / 2
       if |a| < 1 / 10 ^ 10 then 0 else -b / (2 * a)) * 3600 := by
  obtain ⟨-, -, -, hle, -, -⟩ := eventAt_elim he
  simpa only [interpolateTrend] using hle

theorem claim_C2_witness :
    ∃ e : TideEvent,
      eventAt ([0, 3600, 7200] : List ℚ) ([0, 2, 1] : List ℚ) 0 1 = some e ∧
      e.localEpoch = 3600 + (1 / 6) * 3600 := by
  have hev : eventAt ([0, 3600, 7200] : List ℚ) ([0, 2, 1] : List ℚ) 0 1 =
      some ⟨4200, 4200, 70, TideType.high⟩ := by
    norm_num [eventAt, classify, interpolateTrend, abs_lt]
  refine ⟨_, hev, ?_⟩
  have h := claim_C2 [0, 3600, 7200] [0, 2, 1] 0 1 _ hev
  rw [h]
  norm_num [List.getD, abs_lt]

/-- C10: when extraction yields no events the aggregator returns a null
next tide, the literal status `"Unknown 🤷"` (a third value outside the
Rising/Falling vocabulary), and empty high/low arrays; and in every case
the status is exactly one of the literal strings `"Unknown 🤷"`,
`"Rising 🌊"`, `"Falling 🏖️"`. -/
theorem claim_C10 (times heights : List ℚ) (dm : Option MarineDaily)
    (df : Option ForecastDaily) (tz : String) (off now : ℚ) :
    (findHighLowTides times heights off = [] →
      (getTidesCore times heights dm df tz off now).nextTide = none ∧
      (getTidesCore times heights dm df tz off now).status = "Unknown 🤷" ∧
      (getTidesCore times heights dm df tz off now).highTides = [] ∧
      (getTidesCore times heights dm df tz off now).lowTides = []) ∧
    ((getTidesCore times heights dm df tz off now).status = "Unknown 🤷" ∨
     (getTidesCore times heights dm df tz off now).status = "Rising 🌊" ∨
     (getTidesCore times heights dm df tz off now).status = "Falling 🏖️") := by
  constructor
  · intro h
    refine ⟨?_, ?_, ?_, ?_⟩ <;> simp [getTidesCore, h]
  · cases hh : ((findHighLowTides times heights off).filter
        (fun e => decide (now < e.time))).head? with
    | some e =>
        have : (getTidesCore times heights dm df tz off now).status =
            (if e.type = TideType.high then "Rising 🌊" else "Falling 🏖️") := by
          simp only [getTidesCore, hh]
        rw [this]
        cases e.type <;> simp
    | none =>
        cases hl : ((findHighLowTides times heights off).filter
            (fun e => decide (e.time ≤ now))).getLast? with
        | some e =>
            have : (getTidesCore times heights dm df tz off now).status =
                (if e.type = TideType.high then "Falling 🏖️" else "Rising 🌊") := by
              simp only [getTidesCore, hh, hl]
            rw [this]
            cases e.type <;> simp
        | none =>
            have : (getTidesCore times heights dm df tz off now).status =
                "Unknown 🤷" := by
              simp only [getTidesCore, hh, hl]
            rw [this]
            simp

theorem claim_C10_witness :
    (getTidesCore [] [] none none "" 0 0).nextTide = none ∧
    (getTidesCore [] [] none none "" 0 0).status = "Unknown 🤷" ∧
    (getTidesCore [] [] none none "" 0 0).highTides = [] ∧
    (getTidesCore [] [] none none "" 0 0).lowTides = [] :=
  (claim_C10 [] [] none none "" 0 0).1 (by simp [findHighLowTides])

/-- C9: a `todayKey` missing from the marine daily table or the forecast
daily table yields null for the corresponding summary fields (max wave
height; max wind speed, sunrise, sunset) with no error, and the high/low
tide lists are independent of both daily tables — always lists, possibly
empty, even when both tables lack the key. -/
theorem claim_C9 (times heights : List ℚ) (dm : Option MarineDaily)
    (df : Option ForecastDaily) (tz : String) (off now : ℚ) :
    ((∀ m, dm = some m → (⌊(now + off) / 86400⌋ : ℤ) ∉ m.time) →
      (getTidesCore times heights dm df tz off now).maxWaveHeight = none) ∧
    ((∀ f, df = some f → (⌊(now + off) / 86400⌋ : ℤ) ∉ f.time) →
      (getTidesCore times heights dm df tz off now).maxWindSpeed = none ∧
      (getTidesCore times heights dm df tz off now).sunrise = none ∧
      (getTidesCore times heights dm df tz off now).sunset = none) ∧
    (getTidesCore times heights dm df tz off now).highTides =
      (getTidesCore times heights none none tz off now).highTides ∧
    (getTidesCore times heights dm df tz off now).lowTides =
      (getTidesCore times heights none none tz off now).lowTides := by
  refine ⟨?_, ?_, ?_, ?_⟩
  · intro h
    cases dm with
    | none => simp [getTidesCore]
    | some m =>
        have hidx : m.time.indexOf? (⌊(now + off) / 86400⌋ : ℤ) = none := by
          rw [List.indexOf?_eq_none_iff]
          intro x hx
          simp only [beq_iff_eq]
          intro hxe
          exact (h m rfl) (hxe ▸ hx)
        simp [getTidesCore, hidx]
  · intro h
    cases df with
    | none => simp [getTidesCore]
    | some f =>
        have hidx : f.time.indexOf? (⌊(now + off) / 86400⌋ : ℤ) = none := by
          rw [List.indexOf?_eq_none_iff]
          intro x hx
          simp only [beq_iff_eq]
          intro hxe
          exact (h f rfl) (hxe ▸ hx)
        simp [getTidesCore, hidx]
  · simp [getTidesCore]
  · simp [getTidesCore]

theorem claim_C9_witness :
    (getTidesCore [] [] (some ⟨[5], some [2]⟩)
        (some ⟨[7], some [3], some [1], some [4]⟩) "" 0 0).maxWaveHeight = none ∧
    (getTidesCore [] [] (some ⟨[5], some [2]⟩)
        (some ⟨[7], some [3], some [1], some [4]⟩) "" 0 0).sunrise = none := by
  have h := claim_C9 [] [] (some ⟨[5], some [2]⟩)
    (some ⟨[7], some [3], some [1], some [4]⟩) "" 0 0
  refine ⟨h.1 ?_, (h.2.1 ?_).2.1⟩
  · intro m hm
    injection hm with hm'
    subst hm'
    norm_num
  · intro f hf
    injection hf with hf'
    subst hf'
    norm_num

/-- C3: whenever the aggregator finds a next tide event, the status is
the Rising string when its kind is high and the Falling string when its
kind is low; when no extracted event lies strictly after `now` but past
events exist, the status flips on the kind of the most recent past
event (Falling after a high, Rising after a low).  The extracted event
list is assumed chronologically sorted, which holds for contiguous
hourly input. -/
theorem claim_C3 (times heights : List ℚ) (dm : Option MarineDaily)
    (df : Option ForecastDaily) (tz : String) (off now : ℚ)
    (hsort : (findHighLowTides times heights off).Pairwise
      (fun a b => a.time < b.time)) :
    (∀ ty m, (getTidesCore times heights dm df tz off now).nextTide = some (ty, m) →
      (getTidesCore times heights dm df tz off now).status =
        (if ty = TideType.high then "Rising 🌊" else "Falling 🏖️")) ∧
    ((∀ e ∈ findHighLowTides times heights off, e.time ≤ now) →
      ∀ e ∈ findHighLowTides times heights off,
        (∀ e' ∈ findHighLowTides times heights off, e'.time ≤ e.time) →
        (getTidesCore times heights dm df tz off now).status =
          (if e.type = TideType.high then "Falling 🏖️" else "Rising 🌊")) := by
  constructor
  · intro ty m hnt
    cases hh : ((findHighLowTides times heights off).filter
        (fun e => decide (now < e.time))).head? with
    | none =>
        have : (getTidesCore times heights dm df tz off now).nextTide = none := by
          simp only [getTidesCore, hh, Option.map_none']
        rw [this] at hnt
        exact absurd hnt (by simp)
    | some e0 =>
        have hnt' : (getTidesCore times heights dm df tz off now).nextTide =
            some (e0.type, e0.localMinute) := by
          simp only [getTidesCore, hh, Option.map_some']
        rw [hnt'] at hnt
        obtain ⟨h1, h2⟩ := Prod.mk.injEq .. ▸ Option.some.inj hnt
        subst h1
        have : (getTidesCore times heights dm df tz off now).status =
            (if e0.type = TideType.high then "Rising 🌊" else "Falling 🏖️") := by
          simp only [getTidesCore, hh]
        rw [this]
  · intro hall e he hmax
    have hfe : (findHighLowTides times heights off).filter
        (fun e => decide (now < e.time)) = [] := by
      rw [List.filter_eq_nil_iff]
      intro a ha
      simp only [decide_eq_true_eq, not_lt]
      exact hall a ha
    have hpe : (findHighLowTides times heights off).filter
        (fun e => decide (e.time ≤ now)) = findHighLowTides times heights off := by
      rw [List.filter_eq_self]
      intro a ha
      simp only [decide_eq_true_eq]
      exact hall a ha
    have hlast := getLast?_eq_of_max _ hsort e he hmax
    simp only [getTidesCore, hfe, List.head?_nil, hpe, hlast]

theorem claim_C3_witness :
    (getTidesCore [0, 3600, 7200] [1, 2, 1] none none "" 0 100000).status =
      "Falling 🏖️" := by
  have hev : findHighLowTides ([0, 3600, 7200] : List ℚ) ([1, 2, 1] : List ℚ) 0 =
      [⟨3600, 3600, 60, TideType.high⟩] := by
    norm_num [findHighLowTides, eventAt, classify, interpolateTrend,
      List.range_succ, List.filterMap_cons, abs_lt]
  have h := (claim_C3 [0, 3600, 7200] [1, 2, 1] none none "" 0 100000
    (by rw [hev]; simp)).2
  have := h (by rw [hev]; intro e' he'; simp at he'; rw [he']; norm_num)
    ⟨3600, 3600, 60, TideType.high⟩ (by rw [hev]; simp)
    (by rw [hev]; intro e' he'; simp at he'; rw [he'])
  simpa using this

/-- C4: the aggregator's next tide is the head of the future-filtered
full event list: with chronologically sorted events (as contiguous
hourly input guarantees), it is exactly the earliest event strictly
after `now`, taken from the full unfiltered list, and it is null when
no event lies after `now`. -/
theorem claim_C4 (times heights : List ℚ) (dm : Option MarineDaily)
    (df : Option ForecastDaily) (tz : String) (off now : ℚ)
    (hsort : (findHighLowTides times heights off).Pairwise
      (fun a b => a.time < b.time)) :
    ((∀ e ∈ findHighLowTides times heights off, e.time ≤ now) →
      (getTidesCore times heights dm df tz off now).nextTide = none) ∧
    (∀ e ∈ findHighLowTides times heights off, now < e.time →
      (∀ e' ∈ findHighLowTides times heights off, now < e'.time → e.time ≤ e'.time) →
      (getTidesCore times heights dm df tz off now).nextTide =
        some (e.type, e.localMinute)) := by
  constructor
  · intro hall
    have hfe : (findHighLowTides times heights off).filter
        (fun e => decide (now < e.time)) = [] := by
      rw [List.filter_eq_nil_iff]
      intro a ha
      simp only [decide_eq_true_eq, not_lt]
      exact hall a ha
    simp only [getTidesCore, hfe, List.head?_nil, Option.map_none']
  · intro e he hf hmin
    have hhead := filter_head?_eq_of_min now _ hsort e he hf hmin
    simp only [getTidesCore, hhead, Option.map_some']

theorem claim_C4_witness :
    (getTidesCore [0, 3600, 7200] [1, 2, 1] none none "" 0 0).nextTide =
      some (TideType.high, 60) := by
  have hev : findHighLowTides ([0, 3600, 7200] : List ℚ) ([1, 2, 1] : List ℚ) 0 =
      [⟨3600, 3600, 60, TideType.high⟩] := by
    norm_num [findHighLowTides, eventAt, classify, interpolateTrend,
      List.range_succ, List.filterMap_cons, abs_lt]
  have h := (claim_C4 [0, 3600, 7200] [1, 2, 1] none none "" 0 0
    (by rw [hev]; simp)).2
  have := h ⟨3600, 3600, 60, TideType.high⟩ (by rw [hev]; simp) (by norm_num)
    (by rw [hev]; intro e' he' _; simp at he'; rw [he'])
  simpa using this

/-- C7: for a contiguous hourly sample series, the extracted event list
is strictly increasing in absolute time even after the interpolation
offsets are applied, and consequently today's high and low minute
strings in the aggregated result are already ascending with no further
sorting step. -/
theorem claim_C7 (t0 : ℚ) (times heights : List ℚ) (off : ℚ)
    (ht : times = hourlyTimes t0 heights.length) :
    ((findHighLowTides times heights off).Pairwise fun a b => a.time < b.time) ∧
    (∀ dm df tz now,
      ((getTidesCore times heights dm df tz off now).highTides.Pairwise (· ≤ ·)) ∧
      ((getTidesCore times heights dm df tz off now).lowTides.Pairwise (· ≤ ·))) := by
  subst ht
  have hp := findHighLowTides_hourly_pairwise t0 heights off
  refine ⟨hp.imp (fun h => h.2.1), ?_⟩
  intro dm df tz now
  have hm : (findHighLowTides (hourlyTimes t0 heights.length) heights off).Pairwise
      (fun a b => a.localMinute ≤ b.localMinute) := hp.imp (fun h => h.2.2)
  constructor
  · simp only [getTidesCore]
    exact List.pairwise_map.mpr (((hm.filter _).filter _).imp (fun h => h))
  · simp only [getTidesCore]
    exact List.pairwise_map.mpr (((hm.filter _).filter _).imp (fun h => h))

theorem claim_C7_witness :
    ((findHighLowTides (hourlyTimes 0 ([1, 2, 1] : List ℚ).length) [1, 2, 1] 0).Pairwise
      fun a b => a.time < b.time) ∧
    ((getTidesCore (hourlyTimes 0 ([1, 2, 1] : List ℚ).length) [1, 2, 1]
        none none "" 0 0).highTides.Pairwise (· ≤ ·)) := by
  have h := claim_C7 0 (hourlyTimes 0 ([1, 2, 1] : List ℚ).length) [1, 2, 1] 0 rfl
  exact ⟨h.1, (h.2 none none "" 0).1⟩

/-- C6 counterexample: the triple `(0, 1e-11, 1e-11)` is classified as a
high and is asymmetric (`y1 ≠ y3`), yet its interpolation offset is `0`
because the flatness guard `|a| < 1e-10` fires; inside extraction the
resulting event keeps the un-shifted base time. -/
theorem claim_C6_counterexample :
    classify 0 (1 / 10 ^ 11) (1 / 10 ^ 11) = some TideType.high ∧
    (0 : ℚ) ≠ 1 / 10 ^ 11 ∧
    interpolateTrend 0 (1 / 10 ^ 11) (1 / 10 ^ 11) = 0 ∧
    findHighLowTides [0, 3600, 7200] [0, 1 / 10 ^ 11, 1 / 10 ^ 11] 0 =
      [⟨3600, 3600, 60, TideType.high⟩] := by
  refine ⟨?_, by norm_num, ?_, ?_⟩
  · rw [classify_high_iff]
    norm_num
  · simp only [interpolateTrend]
    rw [if_pos (by rw [abs_lt]; constructor <;> norm_num)]
  · norm_num [findHighLowTides, eventAt, classify, interpolateTrend,
      List.range_succ, List.filterMap_cons, abs_lt]

/-- C6 amended: for every classified triple, a symmetric triple
(`y1 = y3`) yields offset `0` independently of amplitude, the offset
always lies strictly within `(-1, 1)` hours, and an asymmetric triple
(`y1 ≠ y3`) yields a strictly nonzero offset provided the flatness
guard does not fire (`|a| ≥ 1e-10`); when the guard fires the offset is
`0` even for asymmetric triples. -/
theorem claim_C6_amended {y1 y2 y3 : ℚ} {ty : TideType}
    (hc : classify y1 y2 y3 = some ty) :
    (y1 = y3 → interpolateTrend y1 y2 y3 = 0) ∧
    (-1 < interpolateTrend y1 y2 y3 ∧ interpolateTrend y1 y2 y3 < 1) ∧
    (y1 ≠ y3 → ¬ |(y1 + y3) / 2 - y2| < 1 / 10 ^ 10 →
      interpolateTrend y1 y2 y3 ≠ 0) := by
  refine ⟨?_, ?_, ?_⟩
  · rintro rfl
    exact interpolateTrend_symm_eq_zero y1 y2
  · have hb := interpolateTrend_bounds hc
    constructor <;> linarith [hb.1, hb.2]
  · intro hne hg
    simp only [interpolateTrend]
    rw [if_neg hg]
    have hb : -((y3 - y1) / 2) ≠ 0 := by
      simp only [neg_ne_zero, div_ne_zero_iff]
      exact ⟨sub_ne_zero.mpr (fun h => hne h.symm), two_ne_zero⟩
    have ha : (2 : ℚ) * ((y1 + y3) / 2 - y2) ≠ 0 := by
      refine mul_ne_zero two_ne_zero ?_
      intro h
      exact hg (by rw [h]; norm_num)
    exact div_ne_zero hb ha

theorem claim_C6_amended_witness :
    interpolateTrend 0 2 1 ≠ 0 ∧ -1 < interpolateTrend 0 2 1 := by
  have hc : classify 0 2 1 = some TideType.high := by
    rw [classify_high_iff]
    norm_num
  have h := claim_C6_amended hc
  refine ⟨h.2.2 (by norm_num) ?_, h.2.1.1⟩
  rw [abs_lt]
  norm_num

/-- C5 counterexample: the core performs no input validation — a height
series containing a non-finite value (JavaScript `NaN`, modelled as
`none`) at index 1 still yields an ordinary, even nonempty, event list
instead of any failure; no `InvalidInputError` exists in the code. -/
theorem claim_C5_counterexample :
    ([some 1, none, some 0, some 2, some 0] : List (Option ℚ)).get? 1 = some none ∧
    findHighLowTidesF [0, 3600, 7200, 10800, 14400]
        [some 1, none, some 0, some 2, some 0] 0 =
      [⟨10800, 10800, 180, TideType.high⟩] := by
  refine ⟨rfl, ?_⟩
  norm_num [findHighLowTidesF, eventAtF, classifyF, jsLt, jsLe, interpolateTrend,
    List.range_succ, List.filterMap_cons, abs_lt]

/-- C5 amended: the extraction loop silently tolerates non-finite
heights instead of failing fast: a triple containing `NaN` never
classifies (all JavaScript comparisons with `NaN` are false), so every
emitted event comes from three finite heights and the function returns
a plain event list rather than raising `InvalidInputError`. -/
theorem claim_C5_amended :
    (∀ p c n : Option ℚ, p = none ∨ c = none ∨ n = none →
      classifyF p c n = none) ∧
    (∀ (times : List ℚ) (heights : List (Option ℚ)) (off : ℚ) (i : ℕ)
      (e : TideEvent), eventAtF times heights off i = some e →
      heights.getD (i - 1) none ≠ none ∧ heights.getD i none ≠ none ∧
      heights.getD (i + 1) none ≠ none) := by
  constructor
  · rintro p c n (rfl | rfl | rfl)
    · cases c <;> cases n <;> simp [classifyF, jsLt, jsLe]
    · cases p <;> cases n <;> simp [classifyF, jsLt, jsLe]
    · cases p <;> cases c <;> simp [classifyF, jsLt, jsLe]
  · intro times heights off i e he
    unfold eventAtF at he
    split_ifs at he with hb
    · dsimp only at he
      rcases hp : heights.getD (i - 1) none with _ | y1 <;>
        rcases hc : heights.getD i none with _ | y2 <;>
          rcases hn : heights.getD (i + 1) none with _ | y3 <;>
            rw [hp, hc, hn] at he <;>
              simp_all [classifyF, jsLt, jsLe]

theorem claim_C5_amended_witness :
    classifyF none (some 1) (some 0) = none :=
  claim_C5_amended.1 none (some 1) (some 0) (Or.inl rfl)

end TideTimeBot
